import Mathlib

/-!
Shallow embedding of the PostgreSQL collection backend
(`internal/backends/postgresql/collection.go`) and the cursor lifecycle
(`internal/clientconn/cursor/cursor.go`) of FerretDB, with theorems about
the documented behaviour of `InsertAll`, `UpdateAll`, `Query`, `Explain`,
`Stats`, `Compact`, `ListIndexes`, and `Cursor.Close` / `Cursor.Next`.

External calls (the metadata registry, the pgx driver, the transaction
helper) are modelled as explicit oracle arguments: each operation receives
the outcome of every engine round trip it performs, and the embedding
reproduces the control flow of the Go source on those outcomes.
-/

namespace FerretDBSpec

/-- A stored document: its `_id` value, its engine-assigned record
identifier, and the remaining fields (modelled as name/value pairs). -/
structure Doc where
  id : Nat
  recordID : Nat
  fields : List (String × Nat)
deriving DecidableEq, Repr

/-- A Go `error` value as the backend sees it: either a `pgconn.PgError`
carrying an SQLSTATE code, or an ordinary error with a message
(e.g. one built by `lazyerrors.Errorf`). -/
inductive GoError where
  | pg (code : String)
  | str (msg : String)
deriving DecidableEq, Repr

/-- `pgerrcode.UniqueViolation`. -/
def uniqueViolation : String := "23505"

/-- The `backends.ErrorCode` values used by `collection.go`. -/
inductive ErrorCode where
  | insertDuplicateID
  | collectionDoesNotExist
  | databaseDoesNotExist
deriving DecidableEq, Repr

/-- An error returned by a collection operation: either
`lazyerrors.Error(err)` (call-site context added, kind unchanged) or
`backends.NewError(code, err)` (a backend-taxonomy error). -/
inductive BackendError where
  | lazy (e : GoError)
  | backend (c : ErrorCode) (e : GoError)
deriving DecidableEq, Repr

/-- One field of an index descriptor (`metadata.IndexKeyPair`). -/
structure MetaIndexKeyPair where
  field : String
  descending : Bool
deriving DecidableEq, Repr

/-- An index descriptor held in collection metadata (`metadata.IndexInfo`):
logical name, uniqueness flag, key fields, and the physical pg index name. -/
structure MetaIndexInfo where
  name : String
  unique : Bool
  key : List MetaIndexKeyPair
  pgIndex : String
deriving DecidableEq, Repr

/-- Collection metadata (`metadata.Collection`): physical table name,
capped flag, index descriptors. -/
structure Meta where
  tableName : String
  capped : Bool
  indexes : List MetaIndexInfo
deriving DecidableEq, Repr

/-- `pgx.Identifier.Sanitize` for one part: double internal quotes and
wrap in double quotes. -/
def sanitizePart (s : String) : String :=
  "\"" ++ s.replace "\"" "\"\"" ++ "\""

/-- `pgx.Identifier{db, table}.Sanitize()`. -/
def sanitizeIdent (db table : String) : String :=
  sanitizePart db ++ "." ++ sanitizePart table

/-! ### InsertAll (`collection.go` lines 115-170)

`InsertAll` creates the collection, resolves the database handle and the
collection metadata, then runs all batches inside one transaction via
`pool.InTransaction`.  The outcome of `tx.Exec` for the k-th batch is
supplied by an oracle `exec : Nat → ExecOutcome`. -/

/-- Outcome of one `tx.Exec` of a batch INSERT. -/
inductive ExecOutcome where
  | ok
  | execError (e : GoError)
deriving DecidableEq, Repr

/-- The batch split performed by the loop in `InsertAll`:
`i := min(batchSize, len(docs)); batch, docs = docs[:i], docs[i:]`,
with `batchSize = 100`, repeated while `len(docs) > 0`. -/
def batches (docs : List Doc) : List (List Doc) :=
  if docs = [] then []
  else docs.take 100 :: batches (docs.drop 100)
termination_by docs.length
decreasing_by
  rename_i h
  simp only [List.length_drop]
  have : docs.length ≠ 0 := fun hl => h (List.eq_nil_of_length_eq_zero hl)
  omega

/-- One pass of the transaction body of `InsertAll`: `result` is what the
closure passed to `pool.InTransaction` returns (`none` = nil error), and
`executed` records the batches for which a multi-row INSERT was actually
issued, in order.  A `tx.Exec` failure is translated exactly as in the
source: a `pgconn.PgError` with code `pgerrcode.UniqueViolation` becomes
`backends.NewError(backends.ErrorCodeInsertDuplicateID, err)`, anything
else becomes `lazyerrors.Error(err)`, and the loop stops. -/
structure TxRun where
  result : Option BackendError
  executed : List (List Doc)
deriving DecidableEq, Repr

/-- The batch loop inside the transaction, executing batch `n`, `n+1`, ...
against the `exec` oracle. -/
def insertTxLoop (exec : Nat → ExecOutcome) (n : Nat) : List (List Doc) → TxRun
  | [] => { result := none, executed := [] }
  | b :: rest =>
    match exec n with
    | .ok =>
      let r := insertTxLoop exec (n + 1) rest
      { result := r.result, executed := b :: r.executed }
    | .execError e =>
      { result := some (match e with
          | .pg code =>
            if code = uniqueViolation then .backend .insertDuplicateID (.pg code)
            else .lazy (.pg code)
          | .str m => .lazy (.str m)),
        executed := [b] }

/-- Oracle results for the external calls made by `InsertAll`. -/
structure InsertEnv where
  collectionCreate : Except GoError Unit
  databaseGetExisting : Except GoError (Option Unit)
  collectionGet : Except GoError (Option Meta)
  exec : Nat → ExecOutcome

/-- `collection.InsertAll`: create the collection, resolve the database and
the metadata (each failure wrapped by `lazyerrors.Error` and returned),
then run all batches inside one transaction; the transaction body's error,
if any, is returned as-is. -/
def insertAll (env : InsertEnv) (docs : List Doc) : Except BackendError Unit :=
  match env.collectionCreate with
  | .error e => .error (.lazy e)
  | .ok _ =>
    match env.databaseGetExisting with
    | .error e => .error (.lazy e)
    | .ok _ =>
      match env.collectionGet with
      | .error e => .error (.lazy e)
      | .ok _ =>
        match (insertTxLoop env.exec 0 (batches docs)).result with
        | some be => .error be
        | none => .ok ()

/-- Modelled from the spec: `pool.InTransaction` (not under src/) runs the
batch loop atomically against the engine — all rows of the call become
visible iff the body returns nil; any error rolls back every batch of the
call, so nothing is persisted. -/
def insertAllPersisted (env : InsertEnv) (docs : List Doc) : List Doc :=
  match insertAll env docs with
  | .ok _ => docs
  | .error _ => []

/-! ### Basic lemmas about `batches` -/

theorem batches_eq (docs : List Doc) :
    batches docs =
      if docs = [] then [] else docs.take 100 :: batches (docs.drop 100) := by
  rw [batches]

theorem batches_nil : batches [] = [] := by
  rw [batches_eq]; rfl

theorem batches_flatten (docs : List Doc) : (batches docs).flatten = docs := by
  induction docs using batches.induct with
  | case1 => rw [batches_nil]; rfl
  | case2 docs h ih =>
    rw [batches_eq, if_neg h]
    simp [List.flatten, ih]

theorem batches_eq_nil_iff (docs : List Doc) : batches docs = [] ↔ docs = [] := by
  constructor
  · intro h
    by_contra hne
    rw [batches_eq, if_neg hne] at h
    exact List.cons_ne_nil _ _ h
  · intro h; rw [h, batches_nil]

theorem batches_mem_length (docs : List Doc) :
    ∀ b ∈ batches docs, 0 < b.length ∧ b.length ≤ 100 := by
  induction docs using batches.induct with
  | case1 => intro b hb; rw [batches_nil] at hb; cases hb
  | case2 docs h ih =>
    intro b hb
    rw [batches_eq, if_neg h] at hb
    rcases List.mem_cons.mp hb with hb | hb
    · subst hb
      constructor
      · simp only [List.length_take]
        have : docs.length ≠ 0 := fun hl => h (List.eq_nil_of_length_eq_zero hl)
        omega
      · simp only [List.length_take]; omega
    · exact ih b hb

theorem batches_dropLast_length (docs : List Doc) :
    ∀ b ∈ (batches docs).dropLast, b.length = 100 := by
  induction docs using batches.induct with
  | case1 => intro b hb; rw [batches_nil] at hb; cases hb
  | case2 docs h ih =>
    intro b hb
    rw [batches_eq, if_neg h] at hb
    by_cases hrest : batches (docs.drop 100) = []
    · rw [hrest] at hb; cases hb
    · rw [List.dropLast_cons_of_ne_nil hrest] at hb
      rcases List.mem_cons.mp hb with hb | hb
      · subst hb
        have hlong : docs.drop 100 ≠ [] := (batches_eq_nil_iff _).not.mp hrest
        have : 100 < docs.length := by
          by_contra hle
          exact hlong (List.drop_eq_nil_of_le (by omega))
        simp only [List.length_take]
        omega
      · exact ih b hb

theorem insertTxLoop_all_ok (exec : Nat → ExecOutcome) (bs : List (List Doc)) (n : Nat)
    (hok : ∀ i, exec i = .ok) :
    insertTxLoop exec n bs = { result := none, executed := bs } := by
  induction bs generalizing n with
  | nil => rfl
  | cons b rest ih =>
    simp only [insertTxLoop, hok n, ih (n + 1)]

/-! ### UpdateAll (`collection.go` lines 173-227)

`UpdateAll` resolves the database and the metadata (absent → zero-result,
no error), then, inside one transaction, issues one single-row UPDATE per
document, keyed by the document's `_id`, and accumulates the
engine-reported modified-row counts.  The oracle `exec` gives the outcome
of `tx.Exec` for each document's UPDATE. -/

/-- Outcome of one `tx.Exec` of a single-row UPDATE: the command tag's
`RowsAffected`, or a driver error. -/
inductive UpdOutcome where
  | ok (rowsAffected : Nat)
  | execError (e : GoError)
deriving DecidableEq, Repr

/-- Result of the `UpdateAll` loop: the returned `Updated` count (or the
error), and the `_id` keys of the UPDATE statements actually issued, in
order. -/
structure UpdRun where
  result : Except BackendError Nat
  issued : List Nat
deriving Repr

/-- The per-document loop inside the transaction of `UpdateAll`: each
document is re-serialized and one UPDATE keyed by its `_id` is issued; an
`exec` failure is wrapped by `lazyerrors.Error` and stops the loop;
otherwise `RowsAffected` is added to the running count. -/
def updateTxLoop (exec : Doc → UpdOutcome) : List Doc → UpdRun
  | [] => { result := .ok 0, issued := [] }
  | d :: ds =>
    match exec d with
    | .execError e => { result := .error (.lazy e), issued := [d.id] }
    | .ok n =>
      let r := updateTxLoop exec ds
      { result := match r.result with
          | .error e => .error e
          | .ok m => .ok (n + m),
        issued := d.id :: r.issued }

/-- `collection.UpdateAll`: absent database or collection yields the
zero-value result (no error, no UPDATE issued); otherwise the transaction
body runs the per-document loop. -/
def updateAll (dbRes : Except GoError (Option Unit))
    (collRes : Except GoError (Option Meta))
    (exec : Doc → UpdOutcome) (docs : List Doc) : UpdRun :=
  match dbRes with
  | .error e => { result := .error (.lazy e), issued := [] }
  | .ok none => { result := .ok 0, issued := [] }
  | .ok (some _) =>
    match collRes with
    | .error e => { result := .error (.lazy e), issued := [] }
    | .ok none => { result := .ok 0, issued := [] }
    | .ok (some _) => updateTxLoop exec docs

theorem updateTxLoop_all_ok (exec : Doc → UpdOutcome) (f : Doc → Nat) :
    ∀ docs : List Doc, (∀ d ∈ docs, exec d = .ok (f d)) →
      updateTxLoop exec docs =
        { result := .ok ((docs.map f).sum), issued := docs.map (fun d => d.id) } := by
  intro docs hex
  induction docs with
  | nil => rfl
  | cons d ds ih =>
    have hd := hex d (List.mem_cons_self d ds)
    have hds := ih (fun x hx => hex x (List.mem_cons_of_mem d hx))
    simp only [updateTxLoop, hd, hds, List.map_cons, List.sum_cons]

/-! ### Query (`collection.go` lines 54-112)

The WHERE / ORDER BY fragments are produced by the clause compiler
(`prepareWhereClause`, `prepareOrderByClause`, not under src/); their
results, and the engine's row result, are supplied as oracle values. -/

/-- The iterator returned by `Query`. -/
structure QueryIterator where
  rows : List Doc
  onlyRecordIDs : Bool
deriving DecidableEq, Repr

/-- Modelled from the spec: `newQueryIterator` (not under src/) wraps
engine rows into a lazy single-consumer document iterator; invoked with no
rows (`none`, as on the absent-namespace paths) it is an iterator over no
rows. -/
def newQueryIterator (rows : Option (List Doc)) (onlyRecordIDs : Bool) : QueryIterator :=
  { rows := rows.getD [], onlyRecordIDs := onlyRecordIDs }

/-- Oracle results for the external calls made by `Query`. -/
structure QueryEnv where
  databaseGetExisting : Except GoError (Option Unit)
  collectionGet : Except GoError (Option Meta)
  whereResult : Except GoError String
  engineQuery : Except GoError (List Doc)

/-- The query parameters relevant to the embedded control flow. -/
structure QueryParams where
  onlyRecordIDs : Bool
  limit : Nat
deriving DecidableEq, Repr

/-- `collection.Query`: an engine error while resolving the database or
the metadata is wrapped and returned; an absent database or collection
yields a successful result with an iterator over no rows; otherwise the
statement is compiled and executed and the rows are wrapped. -/
def query (env : QueryEnv) (params : QueryParams) : Except BackendError QueryIterator :=
  match env.databaseGetExisting with
  | .error e => .error (.lazy e)
  | .ok none => .ok (newQueryIterator none params.onlyRecordIDs)
  | .ok (some _) =>
    match env.collectionGet with
    | .error e => .error (.lazy e)
    | .ok none => .ok (newQueryIterator none params.onlyRecordIDs)
    | .ok (some _) =>
      match env.whereResult with
      | .error e => .error (.lazy e)
      | .ok _ =>
        match env.engineQuery with
        | .error e => .error (.lazy e)
        | .ok rows => .ok (newQueryIterator (some rows) params.onlyRecordIDs)

/-! ### Explain (`collection.go` lines 294-365) -/

/-- The document-shaped query plan produced by `unmarshalExplain`. -/
abbrev Plan := List (String × Nat)

/-- `backends.ExplainResult`. -/
structure ExplainResult where
  queryPlanner : Plan
  filterPushdown : Bool
  sortPushdown : Bool
  limitPushdown : Bool
deriving DecidableEq, Repr

/-- Oracle results for the external calls made by `Explain`;
`engineExplain` combines `QueryRow(...).Scan` and `unmarshalExplain`. -/
structure ExplainEnv where
  databaseGetExisting : Except GoError (Option Unit)
  collectionGet : Except GoError (Option Meta)
  whereResult : Except GoError String
  orderByClause : String
  engineExplain : Except GoError Plan

/-- The explain parameters relevant to the embedded control flow. -/
structure ExplainParams where
  limit : Nat
deriving DecidableEq, Repr

/-- `collection.Explain`.  Note the source (lines 295-300): when
`DatabaseGetExisting` returns an error, the error is dropped and a
successful result with an empty `QueryPlanner` is returned, exactly like
the absent-database branch.  On the main path, `FilterPushdown` is set to
whether the WHERE fragment is non-empty, `SortPushdown` to whether the
ORDER BY fragment is non-empty, and `LimitPushdown` is set (to true) only
inside the `params.Limit != 0` branch. -/
def explain (env : ExplainEnv) (params : ExplainParams) : Except BackendError ExplainResult :=
  match env.databaseGetExisting with
  | .error _ =>
    .ok { queryPlanner := [], filterPushdown := false, sortPushdown := false,
          limitPushdown := false }
  | .ok none =>
    .ok { queryPlanner := [], filterPushdown := false, sortPushdown := false,
          limitPushdown := false }
  | .ok (some _) =>
    match env.collectionGet with
    | .error e => .error (.lazy e)
    | .ok none =>
      .ok { queryPlanner := [], filterPushdown := false, sortPushdown := false,
            limitPushdown := false }
    | .ok (some _) =>
      match env.whereResult with
      | .error e => .error (.lazy e)
      | .ok w =>
        match env.engineExplain with
        | .error e => .error (.lazy e)
        | .ok plan =>
          .ok { queryPlanner := plan,
                filterPushdown := w != "",
                sortPushdown := env.orderByClause != "",
                limitPushdown := params.limit != 0 }

/-! ### ListIndexes (`collection.go` lines 496-545) -/

/-- `backends.IndexKeyPair`. -/
structure IndexKeyPair where
  field : String
  descending : Bool
deriving DecidableEq, Repr

/-- `backends.IndexInfo`. -/
structure IndexInfo where
  name : String
  unique : Bool
  key : List IndexKeyPair
deriving DecidableEq, Repr

/-- The conversion from one metadata index descriptor to a
`backends.IndexInfo`, as performed by the loop in `ListIndexes`. -/
def toIndexInfo (i : MetaIndexInfo) : IndexInfo :=
  { name := i.name, unique := i.unique,
    key := i.key.map (fun k => { field := k.field, descending := k.descending }) }

/-- The ordering used by the `sort.Slice` call in `ListIndexes`:
comparison of index names. -/
def indexNameLE (a b : IndexInfo) : Prop := a.name ≤ b.name

instance : DecidableRel indexNameLE := fun a b =>
  inferInstanceAs (Decidable (a.name ≤ b.name))

instance : IsTotal IndexInfo indexNameLE := ⟨fun a b => le_total a.name b.name⟩

instance : IsTrans IndexInfo indexNameLE := ⟨fun _ _ _ h1 h2 => le_trans h1 h2⟩

/-- `collection.ListIndexes`: an absent database or collection is reported
as a does-not-exist backend error; otherwise the metadata descriptors are
converted and sorted by index name ascending (`sort.Slice` with a
name-comparison `less`; the unspecified sorting algorithm is modelled by
an insertion sort over the same ordering). -/
def listIndexes (dbRes : Except GoError (Option Unit))
    (collRes : Except GoError (Option Meta))
    (dbName collName : String) : Except BackendError (List IndexInfo) :=
  match dbRes with
  | .error e => .error (.lazy e)
  | .ok none =>
    .error (.backend .collectionDoesNotExist
      (.str ("no ns " ++ dbName ++ "." ++ collName)))
  | .ok (some _) =>
    match collRes with
    | .error e => .error (.lazy e)
    | .ok none =>
      .error (.backend .collectionDoesNotExist
        (.str ("no ns " ++ dbName ++ "." ++ collName)))
    | .ok (some coll) =>
      .ok (List.insertionSort indexNameLE (coll.indexes.map toIndexInfo))

/-! ### Stats (`collection.go` lines 368-454) -/

/-- The aggregate numbers returned by `collectionsStats` (not under src/;
supplied as an oracle value). -/
structure StatsData where
  countDocuments : Int
  sizeTables : Int
  sizeIndexes : Int
  sizeFreeStorage : Int
deriving DecidableEq, Repr

/-- `backends.IndexSize`. -/
structure IndexSize where
  name : String
  size : Int
deriving DecidableEq, Repr

/-- `backends.CollectionStatsResult`. -/
structure CollectionStatsResult where
  countDocuments : Int
  sizeTotal : Int
  sizeIndexes : Int
  sizeCollection : Int
  sizeFreeStorage : Int
  indexSizes : List IndexSize
deriving DecidableEq, Repr

/-- The `indexMap` built in `Stats` (pg index name → logical name); for a
Go map filled in order, a later entry with the same key wins. -/
def indexMapLookup (indexes : List MetaIndexInfo) (pgName : String) : Option String :=
  (indexes.reverse.find? (fun i => i.pgIndex == pgName)).map (fun i => i.name)

/-- The `rows.Next` loop of `Stats`: a physical index row whose name is
not in the metadata map is skipped (benign race with index creation);
matching rows fill the result slice sequentially.  The slice is allocated
with one zero-value slot per metadata map entry, so unmatched slots keep
the zero value. -/
def buildIndexSizes (indexes : List MetaIndexInfo) (rows : List (String × Int)) :
    List IndexSize :=
  let filled := rows.filterMap
    (fun r => (indexMapLookup indexes r.1).map (fun nm => IndexSize.mk nm r.2))
  filled ++ List.replicate ((indexes.map (fun i => i.pgIndex)).dedup.length - filled.length)
    { name := "", size := 0 }

/-- `collection.Stats`: an absent database or collection is reported as a
does-not-exist backend error; otherwise the aggregate stats and the
physical index sizes are combined into the result. -/
def stats (dbRes : Except GoError (Option Unit))
    (collRes : Except GoError (Option Meta))
    (statsRes : Except GoError StatsData)
    (indexRows : Except GoError (List (String × Int)))
    (dbName collName : String) : Except BackendError CollectionStatsResult :=
  match dbRes with
  | .error e => .error (.lazy e)
  | .ok none =>
    .error (.backend .collectionDoesNotExist
      (.str ("no ns " ++ dbName ++ "." ++ collName)))
  | .ok (some _) =>
    match collRes with
    | .error e => .error (.lazy e)
    | .ok none =>
      .error (.backend .collectionDoesNotExist
        (.str ("no ns " ++ dbName ++ "." ++ collName)))
    | .ok (some coll) =>
      match statsRes with
      | .error e => .error (.lazy e)
      | .ok st =>
        match indexRows with
        | .error e => .error (.lazy e)
        | .ok rows =>
          .ok { countDocuments := st.countDocuments,
                sizeTotal := st.sizeTables + st.sizeIndexes,
                sizeIndexes := st.sizeIndexes,
                sizeCollection := st.sizeTables,
                sizeFreeStorage := st.sizeFreeStorage,
                indexSizes := buildIndexSizes coll.indexes rows }

/-! ### Compact (`collection.go` lines 457-493) -/

/-- `backends.CompactParams`. -/
structure CompactParams where
  full : Bool
deriving DecidableEq, Repr

/-- `collection.Compact`: an absent database is reported as a
database-does-not-exist backend error, an absent collection as a
collection-does-not-exist backend error; otherwise a VACUUM statement
(FULL when requested) is executed against the sanitized identifier. -/
def compact (dbRes : Except GoError (Option Unit))
    (collRes : Except GoError (Option Meta))
    (params : Option CompactParams)
    (exec : String → Except GoError Unit)
    (dbName collName : String) : Except BackendError Unit :=
  match dbRes with
  | .error e => .error (.lazy e)
  | .ok none =>
    .error (.backend .databaseDoesNotExist
      (.str ("no ns " ++ dbName ++ "." ++ collName)))
  | .ok (some _) =>
    match collRes with
    | .error e => .error (.lazy e)
    | .ok none =>
      .error (.backend .collectionDoesNotExist
        (.str ("no ns " ++ dbName ++ "." ++ collName)))
    | .ok (some coll) =>
      let q := (match params with
        | some ps => if ps.full then "VACUUM FULL ANALYZE " else "VACUUM ANALYZE "
        | none => "VACUUM ANALYZE ") ++ sanitizeIdent dbName coll.tableName
      match exec q with
      | .error e => .error (.lazy e)
      | .ok _ => .ok ()

/-- Whether an operation result is a reported backend error carrying a
does-not-exist kind. -/
def isDoesNotExistError {α : Type} : Except BackendError α → Bool
  | .error (.backend .collectionDoesNotExist _) => true
  | .error (.backend .databaseDoesNotExist _) => true
  | _ => false

/-! ### Cursor (`cursor.go`)

The cursor state: the one-shot guard (`sync.Once`), the inner iterator
reference (present or nil), the registry membership, the closed-signal
channel, and the resource-tracking token, plus one counter per teardown
side effect recording how many times it has run. -/

/-- The fields of `cursor.NewParams` relevant to the embedded state. -/
structure NewCursorParams where
  db : String
  collection : String
  username : String
  showRecordID : Bool
deriving DecidableEq, Repr

/-- The mutable state of one `Cursor` (plus ghost counters for the
teardown side effects). -/
structure CursorState where
  iter : Option Unit
  closeOnceUsed : Bool
  inRegistry : Bool
  closedChanClosed : Bool
  tracked : Bool
  iterCloseCount : Nat
  deleteCount : Nat
  chanCloseCount : Nat
  untrackCount : Nat
  showRecordID : Bool
deriving DecidableEq, Repr

/-- `newCursor`: fresh cursor with the supplied iterator, an open
closed-signal channel, and a tracked resource token.  Registration in the
directory is performed by `Registry.NewCursor` (not under src/; modelled
from the spec: it inserts the new cursor into the directory under
exclusion, hence `inRegistry := true`). -/
def newCursorState (p : NewCursorParams) : CursorState :=
  { iter := some (), closeOnceUsed := false, inRegistry := true,
    closedChanClosed := false, tracked := true,
    iterCloseCount := 0, deleteCount := 0, chanCloseCount := 0, untrackCount := 0,
    showRecordID := p.showRecordID }

/-- `Cursor.Close`: the body runs under `closeOnce.Do`, so it executes
only when the one-shot guard has not fired yet; it closes the inner
iterator and nils the reference, removes the cursor from the registry
(`r.delete`, modelled from the spec: it removes the entry from the
directory), closes the closed-signal channel, and untracks the resource
token. -/
def closeCursor (s : CursorState) : CursorState :=
  if s.closeOnceUsed then s
  else
    { s with
      closeOnceUsed := true,
      iter := none,
      iterCloseCount := s.iterCloseCount + 1,
      inRegistry := false,
      deleteCount := s.deleteCount + 1,
      closedChanClosed := true,
      chanCloseCount := s.chanCloseCount + 1,
      tracked := false,
      untrackCount := s.untrackCount + 1 }

/-- Outcome of `Next` on the inner iterator: a document, the
end-of-sequence error (`iterator.ErrIteratorDone`), or a failure. -/
inductive InnerNextRes where
  | value (d : Doc)
  | done
  | iterError (e : GoError)
deriving DecidableEq, Repr

/-- Outcome of `Cursor.Next`: the Go method call `c.iter.Next()` on a nil
interface value panics at run time, which is a distinct outcome from any
returned value. -/
inductive CursorNextRes where
  | panicNilIter
  | value (d : Doc)
  | done
  | iterError (e : GoError)
deriving DecidableEq, Repr

/-- `doc.Set(k, v)`: replace the value of an existing field or append a
new one. -/
def setField (fs : List (String × Nat)) (k : String) (v : Nat) : List (String × Nat) :=
  match fs with
  | [] => [(k, v)]
  | (k0, v0) :: rest => if k0 = k then (k, v) :: rest else (k0, v0) :: setField rest k v

/-- `Cursor.Next`: delegates to the inner iterator (panicking when the
reference was nilled by `Close`), and injects `$recordId` into a returned
document when the display flag is set. -/
def cursorNext (s : CursorState) (inner : InnerNextRes) : CursorNextRes :=
  match s.iter with
  | none => .panicNilIter
  | some _ =>
    match inner with
    | .value d =>
      .value (if s.showRecordID
        then { d with fields := setField d.fields "$recordId" d.recordID }
        else d)
    | .done => .done
    | .iterError e => .iterError e

/-! ## Theorems -/

/-- If all batches before position `k` execute cleanly and the batch at
position `k` fails with a uniqueness violation, the transaction body
returns the duplicate-identifier backend error and only the first `k + 1`
batches were issued. -/
theorem insertTxLoop_first_unique_violation (exec : Nat → ExecOutcome) :
    ∀ (bs : List (List Doc)) (n k : Nat), k < bs.length →
      (∀ j, j < k → exec (n + j) = .ok) →
      exec (n + k) = .execError (.pg uniqueViolation) →
      insertTxLoop exec n bs =
        { result := some (.backend .insertDuplicateID (.pg uniqueViolation)),
          executed := bs.take (k + 1) } := by
  intro bs
  induction bs with
  | nil => intro n k hk _ _; cases hk
  | cons b rest ih =>
    intro n k hk hbefore hfail
    cases k with
    | zero =>
      have h0 : exec n = .execError (.pg uniqueViolation) := by simpa using hfail
      simp [insertTxLoop, h0, uniqueViolation]
    | succ j =>
      have hn : exec n = .ok := by simpa using hbefore 0 (Nat.succ_pos j)
      have hbefore' : ∀ i, i < j → exec (n + 1 + i) = .ok := by
        intro i hi
        have := hbefore (i + 1) (by omega)
        rwa [show n + (i + 1) = n + 1 + i by omega] at this
      have hfail' : exec (n + 1 + j) = .execError (.pg uniqueViolation) := by
        rwa [show n + (j + 1) = n + 1 + j by omega] at hfail
      have hrec := ih (n + 1) j (by simpa using Nat.lt_of_succ_lt_succ hk) hbefore' hfail'
      simp only [insertTxLoop, hn, hrec, List.take_succ_cons]

/-- Claim C1: for every InsertAll call, if executing any batch fails with
a uniqueness violation (all earlier batches having executed cleanly), the
call returns the distinct duplicate-identifier backend error, not a
generic engine error; the batches after the failing one are not executed;
and, because all batches run inside one transaction that aborts as a
whole, no document from the call is persisted. -/
theorem insertAll_uniqueViolation_atomic
    (env : InsertEnv) (docs : List Doc) (k : Nat) (dbv : Option Unit) (mv : Option Meta)
    (hc : env.collectionCreate = .ok ())
    (hd : env.databaseGetExisting = .ok dbv)
    (hm : env.collectionGet = .ok mv)
    (hk : k < (batches docs).length)
    (hbefore : ∀ j, j < k → env.exec j = .ok)
    (hfail : env.exec k = .execError (.pg uniqueViolation)) :
    insertAll env docs = .error (.backend .insertDuplicateID (.pg uniqueViolation)) ∧
    (insertTxLoop env.exec 0 (batches docs)).executed = (batches docs).take (k + 1) ∧
    insertAllPersisted env docs = [] := by
  have hloop := insertTxLoop_first_unique_violation env.exec (batches docs) 0 k hk
    (fun j hj => by simpa using hbefore j hj) (by simpa using hfail)
  have hins : insertAll env docs =
      .error (.backend .insertDuplicateID (.pg uniqueViolation)) := by
    simp only [insertAll, hc, hd, hm, hloop]
  refine ⟨hins, by rw [hloop], ?_⟩
  simp only [insertAllPersisted, hins]

/-- A single concrete document. -/
def docW : Doc := { id := 1, recordID := 0, fields := [] }

/-- A concrete metadata value. -/
def metaW : Meta := { tableName := "coll_table", capped := false, indexes := [] }

/-- A concrete InsertAll environment whose first batch INSERT hits a
uniqueness violation. -/
def insEnvW : InsertEnv :=
  { collectionCreate := .ok (), databaseGetExisting := .ok (some ()),
    collectionGet := .ok (some metaW),
    exec := fun _ => .execError (.pg uniqueViolation) }

theorem insertAll_uniqueViolation_atomic_witness :
    insertAll insEnvW [docW] = .error (.backend .insertDuplicateID (.pg uniqueViolation)) ∧
    (insertTxLoop insEnvW.exec 0 (batches [docW])).executed = (batches [docW]).take 1 ∧
    insertAllPersisted insEnvW [docW] = [] :=
  insertAll_uniqueViolation_atomic insEnvW [docW] 0 (some ()) (some metaW) rfl rfl rfl
    (by rw [batches_eq]; simp) (fun j hj => absurd hj (Nat.not_lt_zero j)) rfl

/-- Claim C6: for every InsertAll call with a non-empty document list, the
documents are partitioned, in order, into consecutive batches of at most
100 documents each, every batch except possibly the last holding exactly
100; and when the engine accepts every statement one multi-row INSERT is
issued per batch, sequentially, inside the transaction body. -/
theorem insertAll_batching (docs : List Doc) (exec : Nat → ExecOutcome)
    (_hne : docs ≠ []) (hok : ∀ i, exec i = .ok) :
    (batches docs).flatten = docs ∧
    (∀ b ∈ batches docs, 0 < b.length ∧ b.length ≤ 100) ∧
    (∀ b ∈ (batches docs).dropLast, b.length = 100) ∧
    (insertTxLoop exec 0 (batches docs)).executed = batches docs :=
  ⟨batches_flatten docs, batches_mem_length docs, batches_dropLast_length docs,
    by rw [insertTxLoop_all_ok exec _ 0 hok]⟩

theorem insertAll_batching_witness :
    (batches [docW]).flatten = [docW] ∧
    (∀ b ∈ batches [docW], 0 < b.length ∧ b.length ≤ 100) ∧
    (∀ b ∈ (batches [docW]).dropLast, b.length = 100) ∧
    (insertTxLoop (fun _ => ExecOutcome.ok) 0 (batches [docW])).executed = batches [docW] :=
  insertAll_batching [docW] (fun _ => .ok) (by simp) (fun _ => rfl)

/-- Claim C2 (refuted by the code): the claim says a generic engine
failure while resolving the database handle is propagated by every
operation, including Explain.  In the source (`collection.go` lines
295-300), Explain drops the `DatabaseGetExisting` error and returns a
successful result with an empty query plan — evaluated here at a concrete
engine failure. -/
theorem explain_swallows_databaseGetExisting_error :
    explain
      { databaseGetExisting := .error (.pg "57P01"), collectionGet := .ok none,
        whereResult := .ok "", orderByClause := "", engineExplain := .ok [] }
      { limit := 0 } =
    .ok { queryPlanner := [], filterPushdown := false, sortPushdown := false,
          limitPushdown := false } := rfl

/-- Claim C3: for every Query call on a database or collection that does
not exist, the call succeeds and returns an iterator over no rows, not an
error. -/
theorem query_absent_namespace_empty (env : QueryEnv) (params : QueryParams)
    (h : env.databaseGetExisting = .ok none ∨
         (env.databaseGetExisting = .ok (some ()) ∧ env.collectionGet = .ok none)) :
    query env params = .ok { rows := [], onlyRecordIDs := params.onlyRecordIDs } := by
  rcases h with h | ⟨h1, h2⟩
  · simp [query, h, newQueryIterator]
  · simp [query, h1, h2, newQueryIterator]

theorem query_absent_namespace_empty_witness :
    query
      { databaseGetExisting := .ok none, collectionGet := .ok none,
        whereResult := .ok "", engineQuery := .ok [] }
      { onlyRecordIDs := false, limit := 0 } =
    .ok { rows := [], onlyRecordIDs := false } :=
  query_absent_namespace_empty _ _ (Or.inl rfl)

/-- Claim C7: for every UpdateAll call on an existing namespace whose
engine round trips succeed, one single-row UPDATE keyed by the document
identifier is issued per document, in order, and the returned Updated
count is the sum over documents of the rows actually modified; a document
matching no row contributes zero and produces no error. -/
theorem updateAll_counts (dbRes : Except GoError (Option Unit))
    (collRes : Except GoError (Option Meta)) (mv : Meta)
    (exec : Doc → UpdOutcome) (docs : List Doc) (f : Doc → Nat)
    (hdb : dbRes = .ok (some ())) (hcoll : collRes = .ok (some mv))
    (hex : ∀ d ∈ docs, exec d = .ok (f d)) :
    updateAll dbRes collRes exec docs =
      { result := .ok ((docs.map f).sum), issued := docs.map (fun d => d.id) } := by
  subst hdb; subst hcoll
  simpa only [updateAll] using updateTxLoop_all_ok exec f docs hex

/-- A second concrete document, matching no stored row in the C7
witness. -/
def docW2 : Doc := { id := 2, recordID := 0, fields := [] }

theorem updateAll_counts_witness :
    updateAll (.ok (some ())) (.ok (some metaW))
      (fun d => .ok (if d.id = 1 then 1 else 0)) [docW, docW2] =
    { result := .ok (([docW, docW2].map (fun d => if d.id = 1 then 1 else 0)).sum),
      issued := [docW, docW2].map (fun d => d.id) } :=
  updateAll_counts (.ok (some ())) (.ok (some metaW)) metaW
    (fun d => .ok (if d.id = 1 then 1 else 0)) [docW, docW2]
    (fun d => if d.id = 1 then 1 else 0) rfl rfl (fun _ _ => rfl)

/-- Claim C8: for every Explain call on an existing namespace whose engine
round trips succeed, the result reports FilterPushdown exactly when the
produced WHERE fragment is non-empty, SortPushdown exactly when the
produced ORDER BY fragment is non-empty, and LimitPushdown exactly when
the supplied limit is non-zero. -/
theorem explain_pushdown_flags (env : ExplainEnv) (params : ExplainParams)
    (mv : Meta) (w : String) (plan : Plan)
    (hdb : env.databaseGetExisting = .ok (some ()))
    (hcoll : env.collectionGet = .ok (some mv))
    (hw : env.whereResult = .ok w)
    (hp : env.engineExplain = .ok plan) :
    explain env params =
      .ok { queryPlanner := plan, filterPushdown := w != "",
            sortPushdown := env.orderByClause != "",
            limitPushdown := params.limit != 0 } := by
  simp only [explain, hdb, hcoll, hw, hp]

theorem explain_pushdown_flags_witness :
    explain
      { databaseGetExisting := .ok (some ()), collectionGet := .ok (some metaW),
        whereResult := .ok " WHERE _jsonb->\x27_id\x27 = $1", orderByClause := "",
        engineExplain := .ok [("Plan", 1)] }
      { limit := 5 } =
    .ok { queryPlanner := [("Plan", 1)],
          filterPushdown := (" WHERE _jsonb->\x27_id\x27 = $1" != ""),
          sortPushdown := ("" != ""), limitPushdown := ((5 : Nat) != 0) } :=
  explain_pushdown_flags _ _ metaW _ _ rfl rfl rfl rfl

/-- Claim C4: for every Stats, Compact, or ListIndexes call on a database
or collection that does not exist, the call returns a reported backend
error carrying a does-not-exist kind, never a silently-empty success. -/
theorem stats_compact_listIndexes_absent_namespace
    (dbRes : Except GoError (Option Unit)) (collRes : Except GoError (Option Meta))
    (statsRes : Except GoError StatsData)
    (indexRows : Except GoError (List (String × Int)))
    (params : Option CompactParams) (exec : String → Except GoError Unit)
    (dbName collName : String)
    (h : dbRes = .ok none ∨ (dbRes = .ok (some ()) ∧ collRes = .ok none)) :
    isDoesNotExistError (stats dbRes collRes statsRes indexRows dbName collName) = true ∧
    isDoesNotExistError (compact dbRes collRes params exec dbName collName) = true ∧
    isDoesNotExistError (listIndexes dbRes collRes dbName collName) = true := by
  rcases h with h | ⟨h1, h2⟩
  · subst h; exact ⟨rfl, rfl, rfl⟩
  · subst h1; subst h2; exact ⟨rfl, rfl, rfl⟩

theorem stats_compact_listIndexes_absent_namespace_witness :
    isDoesNotExistError
      (stats (.ok none) (.ok none) (.ok ⟨0, 0, 0, 0⟩) (.ok []) "db" "coll") = true ∧
    isDoesNotExistError
      (compact (.ok none) (.ok none) none (fun _ => .ok ()) "db" "coll") = true ∧
    isDoesNotExistError (listIndexes (.ok none) (.ok none) "db" "coll") = true :=
  stats_compact_listIndexes_absent_namespace _ _ _ _ _ _ "db" "coll" (Or.inl rfl)

/-- Claim C9: for every ListIndexes call on an existing collection, the
returned list is sorted by index name in ascending order and is a
permutation of the converted metadata descriptors, whatever order the
metadata stores them in. -/
theorem listIndexes_sorted_by_name
    (dbRes : Except GoError (Option Unit)) (collRes : Except GoError (Option Meta))
    (coll : Meta) (dbName collName : String)
    (hdb : dbRes = .ok (some ())) (hcoll : collRes = .ok (some coll)) :
    ∃ l, listIndexes dbRes collRes dbName collName = .ok l ∧
      List.Sorted indexNameLE l ∧ List.Perm l (coll.indexes.map toIndexInfo) := by
  subst hdb; subst hcoll
  exact ⟨_, rfl, List.sorted_insertionSort indexNameLE _,
    List.perm_insertionSort indexNameLE _⟩

/-- Metadata storing three indexes in the order b_idx, a_idx, c_idx. -/
def metaBAC : Meta :=
  { tableName := "t", capped := false,
    indexes :=
      [ { name := "b_idx", unique := false, key := [], pgIndex := "pg1" },
        { name := "a_idx", unique := false, key := [], pgIndex := "pg2" },
        { name := "c_idx", unique := false, key := [], pgIndex := "pg3" } ] }

theorem listIndexes_sorted_by_name_witness :
    ∃ l, listIndexes (.ok (some ())) (.ok (some metaBAC)) "db" "coll" = .ok l ∧
      List.Sorted indexNameLE l ∧ List.Perm l (metaBAC.indexes.map toIndexInfo) :=
  listIndexes_sorted_by_name _ _ metaBAC "db" "coll" rfl rfl

/-- Claim C5: for every Cursor and every number of Close invocations, the
teardown side effects (releasing the inner iterator, removing the cursor
from the registry, closing the closed-signal channel, untracking the
resource token) execute exactly once: the first Close performs all of them
and every later Close is a no-op. -/
theorem cursor_close_exactly_once (p : NewCursorParams) (n : Nat) (hn : 1 ≤ n) :
    closeCursor^[n] (newCursorState p) = closeCursor (newCursorState p) ∧
    (closeCursor (newCursorState p)).iterCloseCount = 1 ∧
    (closeCursor (newCursorState p)).deleteCount = 1 ∧
    (closeCursor (newCursorState p)).chanCloseCount = 1 ∧
    (closeCursor (newCursorState p)).untrackCount = 1 ∧
    (closeCursor (newCursorState p)).inRegistry = false ∧
    (closeCursor (newCursorState p)).closedChanClosed = true ∧
    (closeCursor (newCursorState p)).tracked = false := by
  have hclosed : ∀ s : CursorState, s.closeOnceUsed = true → closeCursor s = s := by
    intro s hs; simp [closeCursor, hs]
  have h1 : (closeCursor (newCursorState p)).closeOnceUsed = true := rfl
  have hiter : ∀ m, closeCursor^[m] (closeCursor (newCursorState p)) =
      closeCursor (newCursorState p) := by
    intro m
    induction m with
    | zero => rfl
    | succ m ih => rw [Function.iterate_succ_apply, hclosed _ h1, ih]
  obtain ⟨m, rfl⟩ : ∃ m, n = m + 1 := ⟨n - 1, by omega⟩
  exact ⟨by rw [Function.iterate_succ_apply, hiter m], rfl, rfl, rfl, rfl, rfl, rfl, rfl⟩

/-- Concrete cursor-creation parameters. -/
def cursorParamsW : NewCursorParams :=
  { db := "db", collection := "coll", username := "user", showRecordID := false }

theorem cursor_close_exactly_once_witness :
    closeCursor^[2] (newCursorState cursorParamsW) = closeCursor (newCursorState cursorParamsW) ∧
    (closeCursor (newCursorState cursorParamsW)).iterCloseCount = 1 ∧
    (closeCursor (newCursorState cursorParamsW)).deleteCount = 1 ∧
    (closeCursor (newCursorState cursorParamsW)).chanCloseCount = 1 ∧
    (closeCursor (newCursorState cursorParamsW)).untrackCount = 1 ∧
    (closeCursor (newCursorState cursorParamsW)).inRegistry = false ∧
    (closeCursor (newCursorState cursorParamsW)).closedChanClosed = true ∧
    (closeCursor (newCursorState cursorParamsW)).tracked = false :=
  cursor_close_exactly_once cursorParamsW 2 (by decide)

/-- Claim C10: for every Cursor, the first Close sets the inner iterator
reference to nil, so a Next call issued after Close dereferences a nil
iterator and panics — it does not return an error value or an
end-of-sequence signal. -/
theorem cursorNext_after_close_panics (p : NewCursorParams) (inner : InnerNextRes) :
    cursorNext (closeCursor (newCursorState p)) inner = .panicNilIter ∧
    (∀ e, cursorNext (closeCursor (newCursorState p)) inner ≠ .iterError e) ∧
    cursorNext (closeCursor (newCursorState p)) inner ≠ .done := by
  have h : cursorNext (closeCursor (newCursorState p)) inner = .panicNilIter := rfl
  refine ⟨h, fun e => ?_, ?_⟩ <;> rw [h] <;> intro hc <;> cases hc

end FerretDBSpec
